import Mathlib

/-!
Verification of the live-noter ingestion / batching / incremental-synthesis
pipeline (src/utils/webhook-manager.js, src/utils/processor.js,
src/utils/server.js) against its natural-language specification.

The JavaScript code is shallowly embedded: JSON-like runtime values become
the inductive `JsVal`, fallible operations return `Except String _`
(an `error` models a thrown exception), the three durable records
(webhooks.json, processed.json, processor_state.json) become fields of
`SysState`, and the periodic `processWebhooks` tick becomes the pure state
transformer `tick`, parametrised by the LLM subprocess as a function
`String → Option String` (`none` models a missing credential or a non-zero
exit of the subprocess).
-/

set_option maxRecDepth 4096

namespace LiveNoter

/-- A JSON-ish JavaScript runtime value, as handled by the pipeline. -/
inductive JsVal where
  | vstr (s : String)
  | vnum (n : Int)
  | vbool (b : Bool)
  | vnull
  | vundefined
  | varr (xs : List JsVal)
  | vobj (fields : List (String × JsVal))
deriving Repr

namespace JsVal

/-- JavaScript truthiness: `""`, `0`, `false`, `null`, `undefined` are falsy;
arrays and objects (even empty ones) are truthy. -/
def truthy : JsVal → Bool
  | vstr s => s ≠ ""
  | vnum n => n ≠ 0
  | vbool b => b
  | vnull => false
  | vundefined => false
  | varr _ => true
  | vobj _ => true

/-- Property access `v.k` on a non-null value: objects look up the field,
every other non-null value yields `undefined`. (The embedding only performs
access on values already known truthy, matching the `data && data.k` guards
in the source, so the null/undefined-throw case never arises here.) -/
def getField (v : JsVal) (k : String) : JsVal :=
  match v with
  | vobj fields =>
    match fields.find? (fun p => p.1 = k) with
    | some p => p.2
    | none => vundefined
  | _ => vundefined

end JsVal

mutual

/-- The string conversion `Array.prototype.join` applies to each element:
`null`/`undefined` become the empty string, arrays join their elements with
commas, plain objects print as `[object Object]`. -/
def jsJoinStr : JsVal → String
  | .vstr s => s
  | .vnum n => toString n
  | .vbool b => if b then "true" else "false"
  | .vnull => ""
  | .vundefined => ""
  | .varr xs => jsJoinList xs
  | .vobj _ => "[object Object]"

/-- Comma-joined element conversion used by `jsJoinStr` on arrays. -/
def jsJoinList : List JsVal → String
  | [] => ""
  | [x] => jsJoinStr x
  | x :: y :: xs => jsJoinStr x ++ "," ++ jsJoinList (y :: xs)

end

/-- JSON string escaping for one character, as done by `JSON.stringify`. -/
def jsonEscChar (c : Char) : String :=
  if c = '"' then "\\\""
  else if c = '\\' then "\\\\"
  else if c = '\n' then "\\n"
  else if c = '\t' then "\\t"
  else if c = '\r' then "\\r"
  else String.singleton c

/-- A JSON-quoted string literal, as produced by `JSON.stringify`. -/
def jsonQuote (s : String) : String :=
  "\"" ++ String.join (s.data.map jsonEscChar) ++ "\""

mutual

/-- The function JSON.stringify: returns `none` exactly for `undefined` (where the JS
function returns the value `undefined` instead of a string). Inside arrays
`undefined` serializes as `null`; object fields holding `undefined` are
dropped. -/
def jsonStringify : JsVal → Option String
  | .vundefined => none
  | .vnull => some "null"
  | .vbool b => some (if b then "true" else "false")
  | .vnum n => some (toString n)
  | .vstr s => some (jsonQuote s)
  | .varr xs => some ("[" ++ jsonArrBody xs ++ "]")
  | .vobj fs => some ("\x7b" ++ jsonObjBody fs ++ "\x7d")

/-- Array body of `jsonStringify`. -/
def jsonArrBody : List JsVal → String
  | [] => ""
  | [x] => (jsonStringify x).getD "null"
  | x :: y :: xs => (jsonStringify x).getD "null" ++ "," ++ jsonArrBody (y :: xs)

/-- Object body of `jsonStringify` (fields holding `undefined` are dropped). -/
def jsonObjBody : List (String × JsVal) → String
  | [] => ""
  | (k, v) :: fs =>
    match jsonStringify v with
    | none => jsonObjBody fs
    | some sv =>
      let entry := jsonQuote k ++ ":" ++ sv
      match jsonObjBody fs with
      | "" => entry
      | rest => entry ++ "," ++ rest

end

/-- Accessing `.text` on one element of a `segments` array: throws a
TypeError when the element is `null`/`undefined`, otherwise yields the
field (or `undefined`). -/
def segText (v : JsVal) : Except String JsVal :=
  match v with
  | .vnull => .error "TypeError: cannot read text of null"
  | .vundefined => .error "TypeError: cannot read text of undefined"
  | v => .ok (v.getField "text")

/-- The map `segments.map(segment => segment.text)`, left to right,
propagating the first thrown exception. -/
def segTexts : List JsVal → Except String (List JsVal)
  | [] => .ok []
  | v :: vs =>
    match segText v with
    | .error e => .error e
    | .ok t =>
      match segTexts vs with
      | .error e => .error e
      | .ok ts => .ok (t :: ts)

/-- The function extractTextFromData from webhook-manager.js. A plain string is
returned unchanged; a truthy `segments` field is mapped over (`.map` throws
when `segments` is not an array) and joined with single spaces; a truthy
`text` field is returned as-is (whatever value it holds); otherwise the
value is `JSON.stringify`d (which yields the value `undefined`, not a
string, for input `undefined`). -/
def extractTextFromData (d : JsVal) : Except String JsVal :=
  match d with
  | .vstr s => .ok (.vstr s)
  | _ =>
    if d.truthy && (d.getField "segments").truthy then
      match d.getField "segments" with
      | .varr xs =>
        match segTexts xs with
        | .error e => .error e
        | .ok ts => .ok (.vstr (String.intercalate " " (ts.map jsJoinStr)))
      | _ => .error "TypeError: data.segments.map is not a function"
    else if d.truthy && (d.getField "text").truthy then
      .ok (d.getField "text")
    else
      match jsonStringify d with
      | some s => .ok (.vstr s)
      | none => .ok .vundefined

/-- One stored webhook record (a transcript fragment) from webhooks.json. -/
structure Fragment where
  id : String
  data : JsVal
  receivedAt : Nat
deriving Repr

/-- Parsed contents of processed.json: the consumption tracker. -/
structure Processed where
  processedIds : List String
  lastProcessedAt : Option Nat
  totalProcessed : Nat
deriving Repr, DecidableEq

/-- The configured maximum batch size (CONFIG.batchSize). -/
def batchSize : Nat := 10

/-- One transient batch returned by getUnprocessedBatch. `nextText` keeps
the raw JavaScript value the source puts in that field (the extraction
result, which need not be a string). -/
structure Batch where
  items : List Fragment
  mergedText : String
  nextText : JsVal
  hasMore : Bool
deriving Repr

/-- The unconsumed fragments, in ingestion order: webhooks whose id is not
in the processed-ids list. -/
def unconsumedList (ws : List Fragment) (ps : Processed) : List Fragment :=
  ws.filter (fun w => !(ps.processedIds.contains w.id))

/-- The map `batch.map(item => extractTextFromData(item.data))`, left to
right, propagating the first thrown exception. -/
def extractAll : List Fragment → Except String (List JsVal)
  | [] => .ok []
  | w :: ws =>
    match extractTextFromData w.data with
    | .error e => .error e
    | .ok v =>
      match extractAll ws with
      | .error e => .error e
      | .ok vs => .ok (v :: vs)

/-- The function getUnprocessedBatch from webhook-manager.js: filter out
consumed items, return `none` when nothing is unconsumed, otherwise build
the batch (first `batchSize` items, their extracted texts joined by a
single space), the raw look-ahead value (extraction of the first item of
`slice(batchSize, batchSize*2)`, or the empty string), and
`hasMore = unprocessed.length > batchSize`. An `error` models an exception
thrown by extraction. -/
def getUnprocessedBatch (ws : List Fragment) (ps : Processed) :
    Except String (Option Batch) :=
  let unprocessed := unconsumedList ws ps
  if unprocessed.length = 0 then .ok none
  else
    let batch := unprocessed.take batchSize
    let nextBatch := (unprocessed.drop batchSize).take batchSize
    match extractAll batch with
    | .error e => .error e
    | .ok texts =>
      match (match nextBatch with
             | [] => Except.ok (JsVal.vstr "")
             | w :: _ => extractTextFromData w.data) with
      | .error e => .error e
      | .ok nt =>
        .ok (some { items := batch,
                    mergedText := String.intercalate " " (texts.map jsJoinStr),
                    nextText := nt,
                    hasMore := decide (unprocessed.length > batchSize) })

/-- The function markBatchProcessed from webhook-manager.js: a no-op on an
empty batch, otherwise appends the batch ids, stamps `lastProcessedAt` and
adds the batch size to `totalProcessed`. -/
def markBatchProcessed (ps : Processed) (items : List Fragment) (now : Nat) :
    Processed :=
  if items.length = 0 then ps
  else
    { processedIds := ps.processedIds ++ items.map (·.id),
      lastProcessedAt := some now,
      totalProcessed := ps.totalProcessed + items.length }

/-- The function addWebhook from webhook-manager.js: a falsy payload
returns immediately without touching the store; otherwise a fresh fragment
is appended. The generated id and timestamp are passed in explicitly. -/
def addWebhook (ws : List Fragment) (d : JsVal) (id : String) (now : Nat) :
    List Fragment × Option Fragment :=
  if !d.truthy then (ws, none)
  else
    let f : Fragment := { id := id, data := d, receivedAt := now }
    (ws ++ [f], some f)

/-- The function cleanup from webhook-manager.js: keeps every webhook that
is not (older than the cutoff AND already processed), then restricts the
processed ids to the surviving webhooks. -/
def cleanup (ws : List Fragment) (ps : Processed) (cutoff : Nat) :
    List Fragment × Processed :=
  let filtered := ws.filter
    (fun w => !(decide (w.receivedAt < cutoff) && ps.processedIds.contains w.id))
  let remainingIds := filtered.map (·.id)
  let keptIds := ps.processedIds.filter (fun i => remainingIds.contains i)
  (filtered, { ps with processedIds := keptIds })

/-- The function limitWebhooks from webhook-manager.js: when the store
holds more than `maxCount` webhooks it keeps only the most recent
`maxCount` of them (`slice(-maxCount)`, which keeps everything when
`maxCount = 0`) regardless of consumption status, then restricts the
processed ids to the survivors. -/
def limitWebhooks (ws : List Fragment) (ps : Processed) (maxCount : Nat) :
    List Fragment × Processed :=
  if ws.length > maxCount then
    let limited := if maxCount = 0 then ws else ws.drop (ws.length - maxCount)
    let remainingIds := limited.map (·.id)
    let keptIds := ps.processedIds.filter (fun i => remainingIds.contains i)
    (limited, { ps with processedIds := keptIds })
  else (ws, ps)

/-- Parsed contents of processor_state.json: the synthesis state. -/
structure ProcState where
  lastProcessed : String
  processedCount : Nat
  lastProcessedAt : Option Nat
deriving Repr, DecidableEq

/-- Character-level form of the replacement `.replace(/"/g, '\\"')`: every
double quote gets a backslash inserted in front of it; nothing else (in
particular no backslash) is touched. -/
def escList : List Char → List Char
  | [] => []
  | c :: cs => if c = '"' then '\\' :: '"' :: escList cs else c :: escList cs

/-- The quote escaping applied by buildPrompt to the three embedded texts. -/
def escape (s : String) : String :=
  String.mk (escList s.data)

/-- The style block of buildPrompt, included only for a truthy (non-empty)
user style string. -/
def styleSection (userStyle : String) : String :=
  if userStyle ≠ "" then
    "\nUSER\x27S NOTE-TAKING STYLE (follow this style when creating notes):\n"
      ++ userStyle ++ "\n\n---\n\n"
  else ""

/-- The function buildPrompt from processor.js: the fixed instruction text
with the escaped last-synthesized text, main text and look-ahead text
embedded in double-quoted literals. The user style is a parameter here
(the source loads and trims style.txt, defaulting to the empty string). -/
def buildPrompt (userStyle lastProcessed mainText nextText : String) : String :=
  "You are a note taking expert. Here is a part of audio processed, so it might contain small errors on recognizing what the word is. If it does not make sense to you, maybe search for some word of similar pronunciation that fits in the topic. \n\n"
    ++ styleSection userStyle
    ++ "IGNORE unfinished text if it seems like it is cut off from a previous batch that was processed, and if it does not conclude within this text, try to comprehend what it means from next one, and only add the next one\x27s part that can be connected to the unfinished sentence. Also check from last styled piece of styled note processed by LLM, do not double process because you will append the text to where the last one processed ends.\n\nLast one processed: \""
    ++ escape lastProcessed
    ++ "\"\nMain text: \""
    ++ escape mainText
    ++ "\"\nNext one to process: \""
    ++ escape nextText
    ++ "\"\n\nWhat will you output? ONLY PROCESS THE PIECE OF NOTE YOU WILL TAKE WITH THIS TEXT (in markdown form) following the user\x27s note-taking style above. DO NOT OVER PROCESS."

/-- Whitespace as stripped by the JavaScript String.prototype.trim used in
processBatch (the whitespace characters that occur in practice here). -/
def isJsSpace (c : Char) : Bool :=
  c = ' ' || c = '\n' || c = '\t' || c = '\r'

/-- The JavaScript trim: strip leading and trailing whitespace. -/
def jsTrim (s : String) : String :=
  String.mk (((s.data.dropWhile isJsSpace).reverse.dropWhile isJsSpace).reverse)

/-- The durable and output state of one server: the three JSON records,
the append-only output document, and the last_prompt.txt debug file. -/
structure SysState where
  webhooks : List Fragment
  processed : Processed
  procState : ProcState
  output : String
  promptFile : String
deriving Repr

/-- One scheduler tick: the function processWebhooks from server.js with
processBatch from processor.js inlined. The LLM subprocess is the
parameter `llm` mapping the prompt to its raw stdout; `none` models a
missing credential or a non-zero exit (callLLM rejects). The returned
stdout is trimmed; an empty trim throws, as does a non-string look-ahead
value inside buildPrompt. All exceptions are caught by processWebhooks, so
every failure path simply returns the state reached so far. -/
def tick (llm : String → Option String) (style : String) (now : Nat)
    (s : SysState) : SysState :=
  match getUnprocessedBatch s.webhooks s.processed with
  | .error _ => s
  | .ok none => s
  | .ok (some b) =>
    if jsTrim b.mergedText = "" then
      -- processBatch returns null without doing anything; processWebhooks
      -- then still marks the whole batch as processed.
      { s with processed := markBatchProcessed s.processed b.items now }
    else
      match b.nextText with
      | .vstr nt =>
        let prompt := buildPrompt style s.procState.lastProcessed b.mergedText nt
        let s1 := { s with promptFile := prompt }
        match llm prompt with
        | none => s1
        | some out =>
          let content := jsTrim out
          if content = "" then s1
          else
            { s1 with
              output := s1.output ++ content ++ "\n\n",
              procState := { lastProcessed := content,
                             processedCount := s.procState.processedCount + 1,
                             lastProcessedAt := some now },
              processed := markBatchProcessed s1.processed b.items now }
      | _ => s

/-- The POST /stop-recording handler from server.js: it only logs and sends
a JSON response; it neither processes remaining fragments nor clears the
processing interval, so the whole state is returned unchanged. -/
def stopRecording (s : SysState) : SysState := s

/-- Reader of a double-quoted literal body under backslash-escape
semantics: the number of characters before the terminating unescaped
quote, or `none` when no unescaped quote terminates the literal. -/
def quotedLitLen : List Char → Option Nat
  | [] => none
  | '"' :: _ => some 0
  | '\\' :: [] => none
  | '\\' :: _ :: rest => (quotedLitLen rest).map (· + 2)
  | _ :: rest => (quotedLitLen rest).map (· + 1)

/-- The claim-side condition under which the source's `segments` branch is
well behaved: whenever the branch is taken, `segments` is an array none of
whose elements is `null`/`undefined`. -/
def segmentsOk (d : JsVal) : Prop :=
  d.truthy = true → (d.getField "segments").truthy = true →
    ∃ xs, d.getField "segments" = .varr xs ∧
      ∀ x ∈ xs, x ≠ .vnull ∧ x ≠ .vundefined

/-- The claim-side condition under which the source's `text` branch yields
a string: whenever that branch is taken, the `text` field holds a string. -/
def textOk (d : JsVal) : Prop :=
  d.truthy = true → (d.getField "segments").truthy = false →
    (d.getField "text").truthy = true →
      ∃ s, d.getField "text" = .vstr s

/-- Whether an extraction outcome is a normally returned string. -/
def isOkStr : Except String JsVal → Bool
  | .ok (.vstr _) => true
  | _ => false

/-- Projection of a batcher outcome onto its hasMore flag. -/
def batchHasMore : Except String (Option Batch) → Option Bool
  | .ok (some b) => some b.hasMore
  | _ => none

/-- A single stored fragment carrying the text "Hello". -/
def frag1 : Fragment := ⟨"id1", .vstr "Hello", 0⟩

/-- An empty consumption tracker (the defaults of loadProcessed). -/
def ps0 : Processed := ⟨[], none, 0⟩

/-- The default synthesis state (the defaults of loadState). -/
def procState0 : ProcState := ⟨"", 0, none⟩

/-- The batch produced from a store holding only `frag1`. -/
def batch1 : Batch := ⟨[frag1], "Hello", .vstr "", false⟩

/-- A server state holding exactly the fragment `frag1`, nothing consumed. -/
def sHello : SysState := ⟨[frag1], ps0, procState0, "", ""⟩

/-- A server state with an empty fragment store. -/
def sEmpty : SysState := ⟨[], ps0, procState0, "", ""⟩

/-- A server state holding one fragment whose payload is the whitespace
string " " (truthy, so addWebhook stores it). -/
def sBlank : SysState := ⟨[⟨"id1", .vstr " ", 0⟩], ps0, procState0, "", ""⟩

/-- A server state holding three unconsumed fragments, as at session end. -/
def s3 : SysState :=
  ⟨[⟨"f1", .vstr "alpha", 0⟩, ⟨"f2", .vstr "beta", 1⟩, ⟨"f3", .vstr "gamma", 2⟩],
   ps0, procState0, "", ""⟩

/-- An LLM gateway that always fails (missing credential / non-zero exit). -/
def llmNone : String → Option String := fun _ => none

/-- The i-th of a family of one-word fragments "w1", "w2", ... -/
def mkW (i : Nat) : Fragment :=
  ⟨"w" ++ toString (i + 1), .vstr ("w" ++ toString (i + 1)), i⟩

/-- Eleven unconsumed one-word fragments. -/
def ws11 : List Fragment := (List.range 11).map mkW

/-- Thirty-one stored fragments with ids "a0" .. "a30", none consumed. -/
def ws31 : List Fragment :=
  (List.range 31).map (fun i => ⟨"a" ++ toString i, .vstr "x", i⟩)

/-! ## Theorems -/

/-- C10: ingestion of a falsy payload (empty string, null, undefined, 0,
false) returns without modifying the fragment store and stores nothing. -/
theorem c10_falsy_payload_dropped (ws : List Fragment) (d : JsVal)
    (id : String) (now : Nat) (h : d.truthy = false) :
    addWebhook ws d id now = (ws, none) := by
  simp [addWebhook, h]

/-- Witness for C10 at the empty-string payload: the store is unchanged,
so an empty-string transcript fragment is never stored. -/
theorem c10_falsy_payload_dropped_witness :
    addWebhook [frag1] (JsVal.vstr "") "id2" 7 = ([frag1], none) :=
  c10_falsy_payload_dropped [frag1] (JsVal.vstr "") "id2" 7 (by decide)

/-- C7 counterexample: on the payload `\x7bsegments: 1\x7d` (a truthy,
non-array segments field) extraction throws a TypeError instead of
returning a string, refuting "extraction terminates without raising an
exception and returns a string" for every payload. -/
theorem c7_extraction_throws_cex :
    isOkStr (extractTextFromData (JsVal.vobj [("segments", JsVal.vnum 1)])) = false := by
  decide

/-- C6 counterexample: with exactly 11 unconsumed fragments the code sets
`hasMore = true` (11 > batchSize), although no fragment exists beyond the
look-ahead fragment (11 is not greater than batchSize + 1), refuting
"hasMore is true iff the number of unconsumed fragments exceeds
maxBatchSize + 1". -/
theorem c6_hasMore_at_eleven_cex :
    batchHasMore (getUnprocessedBatch ws11 ps0) = some true ∧
    (unconsumedList ws11 ps0).length = 11 ∧
    ¬((unconsumedList ws11 ps0).length > batchSize + 1) := by
  decide

/-- C8 counterexample: with 31 stored fragments and nothing consumed,
limitWebhooks 30 deletes the oldest fragment "a0" even though it was never
consumed, refuting "no operation of the system ever deletes an unconsumed
fragment". -/
theorem c8_limit_deletes_unconsumed_cex :
    (ws31.map (fun w => w.id)).contains "a0" = true ∧
    ps0.processedIds.contains "a0" = false ∧
    (((limitWebhooks ws31 ps0 30).1.map (fun w => w.id)).contains "a0") = false := by
  decide

/-- C9 counterexample: for the value consisting of a single backslash, the
escaped form still ends in a backslash, so the enclosing literal's closing
quote is escaped away and the literal never terminates — refuting "the
embedded value cannot cause the literal's closing quote to be escaped
away". -/
theorem c9_closing_quote_escaped_cex :
    quotedLitLen (escList (String.data "\\") ++ ['"']) = none ∧
    escList (String.data "\\") = ['\\'] := by
  decide

/-- C3 counterexample: a store holding one whitespace-only fragment. The
tick appends nothing to the output (processBatch returns null on a
whitespace-only merged text), yet processWebhooks still marks the fragment
consumed — refuting "a tick that appends nothing must not mark any
fragment consumed". -/
theorem c3_consume_without_append_cex :
    (tick llmNone "" 5 sBlank).output = sBlank.output ∧
    (tick llmNone "" 5 sBlank).procState = sBlank.procState ∧
    (tick llmNone "" 5 sBlank).processed.processedIds = ["id1"] ∧
    sBlank.processed.processedIds = [] := by
  decide

/-- C4: the POST /stop-recording handler is a no-op on the pipeline state;
with three unconsumed fragments remaining it neither processes them as a
final batch nor appends anything — the session-end flush promised by the
spec does not exist in the code (getAllUnprocessed is never called and the
processing interval is not cleared). -/
theorem c4_stop_recording_no_flush :
    stopRecording s3 = s3 ∧
    (unconsumedList s3.webhooks s3.processed).length = 3 ∧
    (stopRecording s3).output = s3.output ∧
    (stopRecording s3).processed = s3.processed :=
  ⟨rfl, by decide, rfl, rfl⟩

/-- Helper: mapping segment-text access never throws when no segment is
null or undefined. -/
theorem segTexts_ok_of_no_null (xs : List JsVal)
    (h : ∀ x ∈ xs, x ≠ .vnull ∧ x ≠ .vundefined) :
    ∃ ts, segTexts xs = .ok ts := by
  induction xs with
  | nil => exact ⟨[], rfl⟩
  | cons v vs ih =>
    obtain ⟨hv1, hv2⟩ := h v (by simp)
    obtain ⟨ts, hts⟩ := ih (fun x hx => h x (by simp [hx]))
    have hsv : ∃ t, segText v = .ok t := by
      cases v with
      | vnull => exact absurd rfl hv1
      | vundefined => exact absurd rfl hv2
      | vstr s => exact ⟨_, rfl⟩
      | vnum n => exact ⟨_, rfl⟩
      | vbool b => exact ⟨_, rfl⟩
      | varr ys => exact ⟨_, rfl⟩
      | vobj fs => exact ⟨_, rfl⟩
    obtain ⟨t, ht⟩ := hsv
    exact ⟨t :: ts, by simp [segTexts, ht, hts]⟩

/-- Helper: serialization yields a string for every value except the bare
`undefined`. -/
theorem jsonStringify_some (d : JsVal) (h : d ≠ .vundefined) :
    ∃ s, jsonStringify d = some s := by
  cases d with
  | vundefined => exact absurd rfl h
  | vnull => exact ⟨_, rfl⟩
  | vbool b => exact ⟨_, rfl⟩
  | vnum n => exact ⟨_, rfl⟩
  | vstr s => exact ⟨_, rfl⟩
  | varr xs => exact ⟨_, rfl⟩
  | vobj fs => exact ⟨_, rfl⟩

/-- C7 (amended): extraction terminates normally with a string on every
payload that is not the bare `undefined`, provided that a truthy
`segments` field (when the segments branch is taken) is an array without
null/undefined elements, and that a used `text` field holds a string.
Outside these conditions the source can throw (non-array `segments`) or
return a non-string (raw `text` value; `undefined` serialization). -/
theorem c7_extraction_total_on_wellformed (d : JsVal)
    (h1 : segmentsOk d) (h2 : textOk d) (h3 : d ≠ .vundefined) :
    ∃ s, extractTextFromData d = .ok (.vstr s) := by
  cases d with
  | vstr s => exact ⟨s, rfl⟩
  | vundefined => exact absurd rfl h3
  | vnull => exact ⟨_, rfl⟩
  | vnum n =>
    refine ⟨toString n, ?_⟩
    simp [extractTextFromData, JsVal.getField, JsVal.truthy, Bool.and_false,
      jsonStringify]
  | vbool b =>
    refine ⟨if b then "true" else "false", ?_⟩
    simp [extractTextFromData, JsVal.getField, JsVal.truthy, Bool.and_false,
      jsonStringify]
  | varr xs =>
    refine ⟨"[" ++ jsonArrBody xs ++ "]", ?_⟩
    simp [extractTextFromData, JsVal.getField, JsVal.truthy, Bool.and_false,
      jsonStringify]
  | vobj fields =>
    by_cases hseg : (JsVal.getField (.vobj fields) "segments").truthy = true
    · obtain ⟨xs, hxs, hel⟩ := h1 rfl hseg
      obtain ⟨ts, hts⟩ := segTexts_ok_of_no_null xs hel
      refine ⟨String.intercalate " " (ts.map jsJoinStr), ?_⟩
      simp only [extractTextFromData, hxs, hts, JsVal.truthy, Bool.true_and]
      rw [hxs] at hseg
      simp [hseg]
    · have hseg' : (JsVal.getField (.vobj fields) "segments").truthy = false :=
        Bool.eq_false_iff.mpr hseg
      have hcond1 : ((JsVal.vobj fields).truthy
          && ((JsVal.vobj fields).getField "segments").truthy) = false := by
        rw [hseg']; simp
      by_cases htxt : (JsVal.getField (.vobj fields) "text").truthy = true
      · obtain ⟨s, hs⟩ := h2 rfl hseg' htxt
        refine ⟨s, ?_⟩
        have hcond2 : ((JsVal.vobj fields).truthy
            && ((JsVal.vobj fields).getField "text").truthy) = true := by
          rw [htxt]; simp [JsVal.truthy]
        simp only [extractTextFromData, hcond1, hcond2]
        simp [hs]
      · have htxt' : (JsVal.getField (.vobj fields) "text").truthy = false :=
          Bool.eq_false_iff.mpr htxt
        have hcond2 : ((JsVal.vobj fields).truthy
            && ((JsVal.vobj fields).getField "text").truthy) = false := by
          rw [htxt']; simp
        refine ⟨"\x7b" ++ jsonObjBody fields ++ "\x7d", ?_⟩
        simp only [extractTextFromData, hcond1, hcond2]
        simp [jsonStringify]

/-- Witness for C7 (amended) at the payload `\x7btext: "hi"\x7d`. -/
theorem c7_extraction_total_on_wellformed_witness :
    ∃ s, extractTextFromData (JsVal.vobj [("text", JsVal.vstr "hi")]) =
      .ok (.vstr s) :=
  c7_extraction_total_on_wellformed (JsVal.vobj [("text", JsVal.vstr "hi")])
    (fun _ habs => absurd habs (by decide))
    (fun _ _ _ => ⟨"hi", rfl⟩)
    (fun habs => JsVal.noConfusion habs)

/-- C9 (amended): in the escaped form of any embedded value, every double
quote is immediately preceded by a backslash (the replacement inserts one
before each quote); the escaping nevertheless does not protect the
enclosing literal, since backslashes themselves are not escaped (see the
counterexample). -/
theorem c9_quotes_escaped (cs : List Char) (i : Nat)
    (h : (escList cs).get? i = some '"') :
    ∃ j, i = j + 1 ∧ (escList cs).get? j = some '\\' := by
  induction cs generalizing i with
  | nil => simp [escList] at h
  | cons c cs ih =>
    by_cases hc : c = '"'
    · subst hc
      simp only [escList, if_pos rfl] at h
      cases i with
      | zero =>
        injection h with h
        exact absurd h (by decide)
      | succ n =>
        cases n with
        | zero => exact ⟨0, rfl, rfl⟩
        | succ m =>
          obtain ⟨j, hj, hg⟩ := ih (i := m) h
          exact ⟨j + 2, by omega, hg⟩
    · simp only [escList, if_neg hc] at h
      cases i with
      | zero =>
        injection h with h
        exact absurd h hc
      | succ n =>
        obtain ⟨j, hj, hg⟩ := ih (i := n) h
        refine ⟨j + 1, by omega, ?_⟩
        simp only [escList, if_neg hc]
        exact hg

/-- Witness for C9 (amended) on the one-quote value: in its escaped form
the quote sits at index 1, preceded by a backslash at index 0. -/
theorem c9_quotes_escaped_witness :
    ∃ j, 1 = j + 1 ∧ (escList ['"']).get? j = some '\\' :=
  c9_quotes_escaped ['"'] 1 (by decide)

/-- Helper: inversion of a successful batcher call — it exposes exactly
how each field of the returned batch was computed from the unconsumed
list. -/
theorem getUnprocessedBatch_ok_some {ws : List Fragment} {ps : Processed}
    {b : Batch} (h : getUnprocessedBatch ws ps = .ok (some b)) :
    ∃ texts,
      extractAll ((unconsumedList ws ps).take batchSize) = .ok texts ∧
      b.items = (unconsumedList ws ps).take batchSize ∧
      b.mergedText = String.intercalate " " (texts.map jsJoinStr) ∧
      (match ((unconsumedList ws ps).drop batchSize).take batchSize with
       | [] => Except.ok (JsVal.vstr "")
       | w :: _ => extractTextFromData w.data) = .ok b.nextText ∧
      b.hasMore = decide ((unconsumedList ws ps).length > batchSize) := by
  simp only [getUnprocessedBatch] at h
  by_cases h0 : (unconsumedList ws ps).length = 0
  · rw [if_pos h0] at h
    cases h
  · rw [if_neg h0] at h
    cases hx : extractAll ((unconsumedList ws ps).take batchSize) with
    | error e => rw [hx] at h; cases h
    | ok texts =>
      rw [hx] at h
      cases hn : (match ((unconsumedList ws ps).drop batchSize).take batchSize with
                  | [] => Except.ok (JsVal.vstr "")
                  | w :: _ => extractTextFromData w.data) with
      | error e => rw [hn] at h; cases h
      | ok nt =>
        rw [hn] at h
        injection h with h
        injection h with h
        subst h
        exact ⟨texts, rfl, rfl, rfl, rfl, rfl⟩

/-- C2: a successful batcher call selects as items exactly the first
batchSize unconsumed fragments in ingestion order, and its merged text is
the space-joined extracted texts of exactly those items, in that order. -/
theorem c2_batch_selection_and_merge (ws : List Fragment) (ps : Processed)
    (b : Batch) (h : getUnprocessedBatch ws ps = .ok (some b)) :
    b.items = (unconsumedList ws ps).take batchSize ∧
    ∃ texts, extractAll b.items = .ok texts ∧
      b.mergedText = String.intercalate " " (texts.map jsJoinStr) := by
  obtain ⟨texts, hx, hi, hm, _, _⟩ := getUnprocessedBatch_ok_some h
  refine ⟨hi, texts, ?_, hm⟩
  rw [hi]
  exact hx

/-- Witness for C2 on a one-fragment store. -/
theorem c2_batch_selection_and_merge_witness :
    batch1.items = (unconsumedList [frag1] ps0).take batchSize ∧
    ∃ texts, extractAll batch1.items = .ok texts ∧
      batch1.mergedText = String.intercalate " " (texts.map jsJoinStr) :=
  c2_batch_selection_and_merge [frag1] ps0 batch1 rfl

/-- C5: the look-ahead of a successful batcher call is the extracted text
of the first unconsumed fragment beyond the batch window (the head of the
unconsumed list after dropping batchSize items), and when fewer than
batchSize + 1 unconsumed fragments exist the look-ahead is the empty
string and hasMore is false. -/
theorem c5_lookahead_correct (ws : List Fragment) (ps : Processed)
    (b : Batch) (h : getUnprocessedBatch ws ps = .ok (some b)) :
    ((unconsumedList ws ps).length < batchSize + 1 →
       b.nextText = JsVal.vstr "" ∧ b.hasMore = false) ∧
    (∀ w, ((unconsumedList ws ps).drop batchSize).head? = some w →
       extractTextFromData w.data = .ok b.nextText) := by
  obtain ⟨texts, hx, hi, hm, hnt, hhm⟩ := getUnprocessedBatch_ok_some h
  constructor
  · intro hlen
    have hdrop : (unconsumedList ws ps).drop batchSize = [] :=
      List.drop_eq_nil_of_le (by omega)
    rw [hdrop] at hnt
    simp only [List.take_nil] at hnt
    refine ⟨?_, ?_⟩
    · injection hnt with hnt
      exact hnt.symm
    · rw [hhm]
      simp
      omega
  · intro w hw
    cases hd : (unconsumedList ws ps).drop batchSize with
    | nil => rw [hd] at hw; cases hw
    | cons w' t =>
      rw [hd] at hw
      injection hw with hw
      subst hw
      rw [hd] at hnt
      simpa only [batchSize, List.take_succ_cons] using hnt

/-- Witness for C5 on a one-fragment store. -/
theorem c5_lookahead_correct_witness :
    ((unconsumedList [frag1] ps0).length < batchSize + 1 →
       batch1.nextText = JsVal.vstr "" ∧ batch1.hasMore = false) ∧
    (∀ w, ((unconsumedList [frag1] ps0).drop batchSize).head? = some w →
       extractTextFromData w.data = .ok batch1.nextText) :=
  c5_lookahead_correct [frag1] ps0 batch1 rfl

/-- C6 (amended): the hasMore flag of a successful batcher call is true
exactly when unconsumed fragments exist beyond the batch window itself,
i.e. when the number of unconsumed fragments exceeds batchSize (not
batchSize + 1: the look-ahead fragment itself already sets the flag). -/
theorem c6_hasMore_iff_beyond_batch (ws : List Fragment) (ps : Processed)
    (b : Batch) (h : getUnprocessedBatch ws ps = .ok (some b)) :
    b.hasMore = true ↔ (unconsumedList ws ps).length > batchSize := by
  obtain ⟨_, _, _, _, _, hhm⟩ := getUnprocessedBatch_ok_some h
  rw [hhm]
  exact decide_eq_true_iff

/-- Witness for C6 (amended) on a one-fragment store. -/
theorem c6_hasMore_iff_beyond_batch_witness :
    batch1.hasMore = true ↔ (unconsumedList [frag1] ps0).length > batchSize :=
  c6_hasMore_iff_beyond_batch [frag1] ps0 batch1 rfl

/-- C8 (amended): the retention-cleanup operation removes only fragments
that are both already marked consumed and older than the retention cutoff;
every fragment that is unconsumed, or not older than the cutoff, survives
cleanup. (The separate limit operation, however, can delete unconsumed
fragments — see the counterexample.) -/
theorem c8_cleanup_only_removes_consumed_old
    (ws : List Fragment) (ps : Processed) (cutoff : Nat) (w : Fragment)
    (hw : w ∈ ws)
    (h : ¬(w.receivedAt < cutoff ∧ ps.processedIds.contains w.id = true)) :
    w ∈ (cleanup ws ps cutoff).1 := by
  have hp : (decide (w.receivedAt < cutoff)
      && ps.processedIds.contains w.id) = false := by
    cases hc : ps.processedIds.contains w.id with
    | false => simp
    | true =>
      cases hd : decide (w.receivedAt < cutoff) with
      | false => simp
      | true => exact absurd ⟨of_decide_eq_true hd, hc⟩ h
  simp only [cleanup]
  rw [List.mem_filter]
  exact ⟨hw, by rw [hp]; rfl⟩

/-- Witness for C8 (amended): an unconsumed fragment survives cleanup. -/
theorem c8_cleanup_only_removes_consumed_old_witness :
    frag1 ∈ (cleanup [frag1] ps0 100).1 :=
  c8_cleanup_only_removes_consumed_old [frag1] ps0 100 frag1
    (List.mem_singleton.mpr rfl) (by decide)

/-- C1: when the batcher yields a batch with non-blank merged text and a
string look-ahead, and the gateway call on the built prompt fails (missing
credential or non-zero exit, modelled by `none`, or empty/whitespace-only
stdout), the tick leaves the consumption record, the synthesis state and
the output unchanged, and an immediate re-run of the batcher over the
resulting state yields the identical batch. -/
theorem c1_gateway_failure_commits_nothing
    (llm : String → Option String) (style : String) (now : Nat)
    (s : SysState) (b : Batch) (nt : String)
    (hb : getUnprocessedBatch s.webhooks s.processed = .ok (some b))
    (hm : ¬jsTrim b.mergedText = "")
    (hnt : b.nextText = .vstr nt)
    (hf : llm (buildPrompt style s.procState.lastProcessed b.mergedText nt)
            = none ∨
          ∃ out,
            llm (buildPrompt style s.procState.lastProcessed b.mergedText nt)
              = some out ∧ jsTrim out = "") :
    (tick llm style now s).processed = s.processed ∧
    (tick llm style now s).procState = s.procState ∧
    (tick llm style now s).output = s.output ∧
    getUnprocessedBatch (tick llm style now s).webhooks
      (tick llm style now s).processed = .ok (some b) := by
  rcases hf with hf | ⟨out, hout, htrim⟩
  · simp only [tick, hb, if_neg hm, hnt, hf]
    exact ⟨trivial, trivial, trivial, trivial⟩
  · simp only [tick, hb, if_neg hm, hnt, hout, if_pos htrim]
    exact ⟨trivial, trivial, trivial, trivial⟩

/-- Witness for C1: a one-fragment store with an always-failing gateway. -/
theorem c1_gateway_failure_commits_nothing_witness :
    (tick llmNone "" 3 sHello).processed = sHello.processed ∧
    (tick llmNone "" 3 sHello).procState = sHello.procState ∧
    (tick llmNone "" 3 sHello).output = sHello.output ∧
    getUnprocessedBatch (tick llmNone "" 3 sHello).webhooks
      (tick llmNone "" 3 sHello).processed = .ok (some batch1) :=
  c1_gateway_failure_commits_nothing llmNone "" 3 sHello batch1 ""
    rfl (by decide) rfl (Or.inl rfl)

/-- C3 (amended): a tick that appends nothing to the output leaves the
consumed ids unchanged, except in one case: the selected batch's merged
text is empty or whitespace-only, in which case processBatch returns null
without appending and processWebhooks still marks the whole batch
consumed. -/
theorem c3_consume_only_with_append_or_blank
    (llm : String → Option String) (style : String) (now : Nat) (s : SysState)
    (h : (tick llm style now s).output = s.output) :
    (tick llm style now s).processed.processedIds = s.processed.processedIds ∨
    ∃ b, getUnprocessedBatch s.webhooks s.processed = .ok (some b) ∧
      jsTrim b.mergedText = "" := by
  cases hb : getUnprocessedBatch s.webhooks s.processed with
  | error e => left; simp only [tick, hb]
  | ok ob =>
    cases ob with
    | none => left; simp only [tick, hb]
    | some b =>
      by_cases hm : jsTrim b.mergedText = ""
      · right; exact ⟨b, rfl, hm⟩
      · left
        cases hnt : b.nextText with
        | vstr nt =>
          cases hout : llm (buildPrompt style s.procState.lastProcessed
              b.mergedText nt) with
          | none => simp only [tick, hb, if_neg hm, hnt, hout]
          | some out =>
            by_cases ht : jsTrim out = ""
            · simp only [tick, hb, if_neg hm, hnt, hout, if_pos ht]
            · exfalso
              simp only [tick, hb, if_neg hm, hnt, hout, if_neg ht] at h
              have hd := congrArg String.data h
              simp only [String.data_append] at hd
              have hlen := congrArg List.length hd
              simp [List.length_append] at hlen
        | vnum n => simp only [tick, hb, if_neg hm, hnt]
        | vbool bo => simp only [tick, hb, if_neg hm, hnt]
        | vnull => simp only [tick, hb, if_neg hm, hnt]
        | vundefined => simp only [tick, hb, if_neg hm, hnt]
        | varr xs => simp only [tick, hb, if_neg hm, hnt]
        | vobj fs => simp only [tick, hb, if_neg hm, hnt]

/-- Witness for C3 (amended) on an empty store: the tick appends nothing
and consumes nothing. -/
theorem c3_consume_only_with_append_or_blank_witness :
    (tick llmNone "" 0 sEmpty).processed.processedIds
      = sEmpty.processed.processedIds ∨
    ∃ b, getUnprocessedBatch sEmpty.webhooks sEmpty.processed = .ok (some b) ∧
      jsTrim b.mergedText = "" :=
  c3_consume_only_with_append_or_blank llmNone "" 0 sEmpty rfl

end LiveNoter
